import Mathlib

/-!
Shallow embedding of the alert-gating, dispatch and evaluation core of the
`postgres-stat-alert` monitoring daemon (Go).

Times are modelled as integers (nanoseconds of Go's monotonic clock, so that
`time.Since(t) = now - t` and `time.Duration` comparisons are integer
comparisons); Go `map[string]T` values are modelled as association lists;
fallible operations return `Option`.  Each definition is a direct
transliteration of the function of the same name in the source.
-/

namespace PgStatAlert

abbrev Time := Int

/-- Association-list lookup, modelling Go map indexing `v, ok := m[k]`. -/
def lookup {α : Type} (k : String) : List (String × α) → Option α
| [] => none
| (k', v) :: rest => if k' = k then some v else lookup k rest

/-- Association-list update, modelling Go map assignment `m[k] = v`. -/
def store {α : Type} (k : String) (v : α) : List (String × α) → List (String × α)
| [] => [(k, v)]
| (k', v') :: rest => if k' = k then (k, v) :: rest else (k', v') :: store k v rest

/-- `AlertTracker` (alert.go): `LastAlert map[string]map[string]time.Time`,
keyed `[queryName][channel] -> lastAlertTime`.  The `sync.RWMutex` guards the
map; the interleaving model for the concurrency claim is separate (`wfFrom`
below). -/
structure AlertTracker where
  LastAlert : List (String × List (String × Time))
deriving DecidableEq, Repr

/-- `NewAlertTracker` (alert.go): an empty map. -/
def NewAlertTracker : AlertTracker := ⟨[]⟩

/-- `CanSendAlert` (alert.go lines 33-43): true when no entry exists for
`(queryName, channel)`, otherwise `time.Since(lastTime) >= interval`. -/
def CanSendAlert (tr : AlertTracker) (queryName channel : String)
    (interval : Time) (now : Time) : Bool :=
  match lookup queryName tr.LastAlert with
  | some queryAlerts =>
    match lookup channel queryAlerts with
    | some lastTime => decide (interval ≤ now - lastTime)
    | none => true
  | none => true

/-- `RecordAlert` (alert.go lines 46-54): stores the current time under
`(queryName, channel)`, creating the inner map when absent. -/
def RecordAlert (tr : AlertTracker) (queryName channel : String)
    (now : Time) : AlertTracker :=
  let inner := (lookup queryName tr.LastAlert).getD []
  ⟨store queryName (store channel now inner) tr.LastAlert⟩

/-- The recorded timestamp for a `(queryName, channel)` key, when any. -/
def lastSent (tr : AlertTracker) (queryName channel : String) : Option Time :=
  (lookup queryName tr.LastAlert).bind (lookup channel)

theorem lookup_store_self {α : Type} (k : String) (v : α) (l : List (String × α)) :
    lookup k (store k v l) = some v := by
  induction l with
  | nil => simp [lookup, store]
  | cons hd tl ih =>
    obtain ⟨k', v'⟩ := hd
    by_cases h : k' = k
    · simp [lookup, store, h]
    · simp [lookup, store, h, ih]

theorem lookup_store_ne {α : Type} {k k' : String} (h : k' ≠ k) (v : α)
    (l : List (String × α)) : lookup k' (store k v l) = lookup k' l := by
  induction l with
  | nil => simp [lookup, store, Ne.symm h]
  | cons hd tl ih =>
    obtain ⟨k0, v0⟩ := hd
    by_cases h0 : k0 = k
    · subst h0
      simp [store, lookup, Ne.symm h]
    · simp only [store, if_neg h0, lookup, ih]

theorem lastSent_record_self (tr : AlertTracker) (q c : String) (t : Time) :
    lastSent (RecordAlert tr q c t) q c = some t := by
  simp [lastSent, RecordAlert, lookup_store_self]

theorem canSend_eq_lastSent (tr : AlertTracker) (q c : String) (I now : Time) :
    CanSendAlert tr q c I now =
      (match lastSent tr q c with
       | some last => decide (I ≤ now - last)
       | none => true) := by
  unfold CanSendAlert lastSent
  cases lookup q tr.LastAlert with
  | none => rfl
  | some inner => cases lookup c inner <;> rfl

/-- C1.  For every key and interval: `CanSendAlert` is true when nothing is
recorded for the key; immediately after `RecordAlert` (for a positive
interval) it is false; and after a recorded send it is true exactly when the
elapsed time since the recorded timestamp is at least the interval. -/
theorem C1_rate_limiter_cycle (tr : AlertTracker) (q c : String) (I now t : Time) :
    (lastSent tr q c = none → CanSendAlert tr q c I now = true) ∧
    (0 < I → CanSendAlert (RecordAlert tr q c t) q c I t = false) ∧
    (CanSendAlert (RecordAlert tr q c t) q c I now = decide (I ≤ now - t)) := by
  refine ⟨?_, ?_, ?_⟩
  · intro h
    rw [canSend_eq_lastSent, h]
  · intro hI
    rw [canSend_eq_lastSent, lastSent_record_self]
    have h : ¬ (I ≤ t - t) := by
      rw [sub_self]
      exact not_le.mpr hI
    exact decide_eq_false h
  · rw [canSend_eq_lastSent, lastSent_record_self]

/-- Witness for C1 at a concrete key, interval 60, record at time 5. -/
theorem C1_rate_limiter_cycle_witness :
    CanSendAlert NewAlertTracker "q" "telegram" 60 0 = true ∧
    CanSendAlert (RecordAlert NewAlertTracker "q" "telegram" 5) "q" "telegram" 60 5 = false ∧
    CanSendAlert (RecordAlert NewAlertTracker "q" "telegram" 5) "q" "telegram" 60 70 = true := by
  refine ⟨(C1_rate_limiter_cycle NewAlertTracker "q" "telegram" 60 0 5).1 rfl,
          (C1_rate_limiter_cycle NewAlertTracker "q" "telegram" 60 0 5).2.1 (by decide),
          ?_⟩
  rw [(C1_rate_limiter_cycle NewAlertTracker "q" "telegram" 60 70 5).2.2]
  decide

/-!
## Condition evaluator (monitor.go)

Go `interface{}` scalars reaching `evaluateCondition` are one of: a floating
value, an integer value, a byte slice (`[]uint8`, how PostgreSQL numerics
arrive), a string, or nil.  float64 values are modelled exactly as decimal
rationals `num / 10 ^ exp` (the claims only exercise values where IEEE
float64 arithmetic is exact); comparisons cross-multiply, which agrees with
the rational order (`toQ_lt_iff` below). -/
structure GoFloat where
  num : Int
  exp : Nat
deriving DecidableEq, Repr

/-- The rational value of a modelled float64. -/
def toQ (x : GoFloat) : ℚ := (x.num : ℚ) / (10 : ℚ) ^ x.exp

/-- Strict order on modelled float64 values, by cross-multiplication. -/
def fltB (x y : GoFloat) : Bool :=
  decide (x.num * (10 : Int) ^ y.exp < y.num * (10 : Int) ^ x.exp)

/-- Non-strict order on modelled float64 values. -/
def fleB (x y : GoFloat) : Bool :=
  decide (x.num * (10 : Int) ^ y.exp ≤ y.num * (10 : Int) ^ x.exp)

/-- Equality test on modelled float64 values. -/
def feqB (x y : GoFloat) : Bool :=
  decide (x.num * (10 : Int) ^ y.exp = y.num * (10 : Int) ^ x.exp)

theorem toQ_lt_iff (x y : GoFloat) :
    toQ x < toQ y ↔ x.num * (10 : Int) ^ y.exp < y.num * (10 : Int) ^ x.exp := by
  unfold toQ
  rw [div_lt_div_iff₀ (by positivity) (by positivity)]
  constructor <;> intro h <;> exact_mod_cast h

theorem toQ_le_iff (x y : GoFloat) :
    toQ x ≤ toQ y ↔ x.num * (10 : Int) ^ y.exp ≤ y.num * (10 : Int) ^ x.exp := by
  unfold toQ
  rw [div_le_div_iff₀ (by positivity) (by positivity)]
  constructor <;> intro h <;> exact_mod_cast h

theorem toQ_eq_iff (x y : GoFloat) :
    toQ x = toQ y ↔ x.num * (10 : Int) ^ y.exp = y.num * (10 : Int) ^ x.exp := by
  unfold toQ
  rw [div_eq_div_iff (by positivity) (by positivity)]
  constructor <;> intro h <;> exact_mod_cast h

theorem fltB_eq (x y : GoFloat) : fltB x y = decide (toQ x < toQ y) := by
  simp [fltB, toQ_lt_iff]

theorem fleB_eq (x y : GoFloat) : fleB x y = decide (toQ x ≤ toQ y) := by
  simp [fleB, toQ_le_iff]

theorem feqB_eq (x y : GoFloat) : feqB x y = decide (toQ x = toQ y) := by
  simp [feqB, toQ_eq_iff]

inductive GoVal where
| vfloat (f : GoFloat)
| vint (n : Int)
| vbytes (s : String)
| vstr (s : String)
| vnull
deriving DecidableEq, Repr

/-- Numeric value of a decimal digit string, most significant digit first. -/
def digitsVal (l : List Char) : Nat :=
  l.foldl (fun acc c => acc * 10 + (c.toNat - 48)) 0

/-- `parseFloat` (monitor.go lines 227-231): `fmt.Sscanf(str, "%f", &f)`.
The scanner accepts an optional sign, then a decimal number with an optional
fractional part, and ignores trailing input (exponents and hex floats, which
no claim exercises, are not modelled). -/
def parseFloat (s : String) : Option GoFloat :=
  let cs := s.toList
  let signed : Int × List Char :=
    match cs with
    | '-' :: r => (-1, r)
    | '+' :: r => (1, r)
    | _ => (1, cs)
  let ip := signed.2.takeWhile Char.isDigit
  let rest := signed.2.dropWhile Char.isDigit
  match rest with
  | '.' :: r2 =>
    let fp := r2.takeWhile Char.isDigit
    if ip.isEmpty && fp.isEmpty then none
    else some ⟨signed.1 * (digitsVal ip * 10 ^ fp.length + digitsVal fp), fp.length⟩
  | _ =>
    if ip.isEmpty then none else some ⟨signed.1 * digitsVal ip, 0⟩

/-- `convertToFloat64` (monitor.go lines 205-224): floats and integers convert
directly; byte slices go through `parseFloat`; anything else (in particular
Go `string` values and nil) fails. -/
def convertToFloat64 : GoVal → Option GoFloat
| .vfloat f => some f
| .vint n => some ⟨n, 0⟩
| .vbytes s => parseFloat s
| .vstr _ => none
| .vnull => none

/-- Go's `fmt.Sprintf("%v", value)` default rendering for the modelled scalar
kinds.  A byte slice prints as the bracketed decimal byte values
(`[]uint8("5")` prints as `[53]`); nil prints as `<nil>`.  The float rendering
is a canonical decimal string (exact Go float formatting is not modelled; no
claim exercises it). -/
def renderValue : GoVal → String
| .vfloat f => if f.exp = 0 then toString f.num else toString f.num ++ "/10^" ++ toString f.exp
| .vint n => toString n
| .vbytes s => "[" ++ String.intercalate " " (s.toList.map (fun c => toString c.toNat)) ++ "]"
| .vstr s => s
| .vnull => "<nil>"

/-- `evaluateCondition` (monitor.go lines 168-202): when both operands convert
to float64 the six recognized operators compare numerically (an unrecognized
operator falls through the `switch`); otherwise, and on fallthrough, the
string fallback compares default renderings and supports only `eq`/`ne`,
yielding `false` for every other operator. -/
def evaluateCondition (actual : GoVal) (condition : String) (expected : GoVal) : Bool :=
  let fallback : Bool :=
    if condition = "eq" then decide (renderValue actual = renderValue expected)
    else if condition = "ne" then decide (renderValue actual ≠ renderValue expected)
    else false
  match convertToFloat64 actual, convertToFloat64 expected with
  | some actualFloat, some expectedFloat =>
    if condition = "gt" then fltB expectedFloat actualFloat
    else if condition = "lt" then fltB actualFloat expectedFloat
    else if condition = "gte" then fleB expectedFloat actualFloat
    else if condition = "lte" then fleB actualFloat expectedFloat
    else if condition = "eq" then feqB actualFloat expectedFloat
    else if condition = "ne" then !(feqB actualFloat expectedFloat)
    else fallback
  | _, _ => fallback

/-- C3.  Numeric comparison when both operands convert; string fallback
restricted to `eq`/`ne` (anything else is false) when either fails to
convert; and the four concrete examples from the spec. -/
theorem C3_condition_evaluator :
    (∀ a e x y, convertToFloat64 a = some x → convertToFloat64 e = some y →
      evaluateCondition a "gt" e = decide (toQ x > toQ y) ∧
      evaluateCondition a "lt" e = decide (toQ x < toQ y) ∧
      evaluateCondition a "gte" e = decide (toQ x ≥ toQ y) ∧
      evaluateCondition a "lte" e = decide (toQ x ≤ toQ y) ∧
      evaluateCondition a "eq" e = decide (toQ x = toQ y) ∧
      evaluateCondition a "ne" e = decide (toQ x ≠ toQ y)) ∧
    (∀ a e c, convertToFloat64 a = none ∨ convertToFloat64 e = none →
      evaluateCondition a c e =
        (if c = "eq" then decide (renderValue a = renderValue e)
         else if c = "ne" then decide (renderValue a ≠ renderValue e)
         else false)) ∧
    evaluateCondition (.vint 105) "gt" (.vint 100) = true ∧
    evaluateCondition (.vbytes "5") "gt" (.vint 3) = true ∧
    evaluateCondition (.vstr "abc") "eq" (.vstr "abc") = true ∧
    evaluateCondition (.vstr "abc") "gt" (.vstr "abd") = false := by
  refine ⟨?_, ?_, by decide, by decide, by decide, by decide⟩
  · intro a e x y hx hy
    simp [evaluateCondition, hx, hy, fltB_eq, fleB_eq, feqB_eq, GT.gt, GE.ge]
  · intro a e c h
    rcases h with h | h <;> simp [evaluateCondition, h]

/-- Witness for C3 at concrete convertible operands. -/
theorem C3_condition_evaluator_witness :
    evaluateCondition (.vint 7) "gte" (.vint 7) = decide (toQ ⟨7, 0⟩ ≥ toQ ⟨7, 0⟩) :=
  (C3_condition_evaluator.1 (.vint 7) (.vint 7) ⟨7, 0⟩ ⟨7, 0⟩ rfl rfl).2.2.1

/-!
## Alert-hours gate (`isWithinAlertHours`, sendalert source lines 215-281)

The struct fields follow their use in the source (`alertHours.Start`,
`.End`, `.Timezone`, `.Days`).  A resolved wall-clock instant is modelled as
a weekday index plus seconds since local midnight; timezone resolution
(`time.LoadLocation` followed by `time.Now().In(loc)`) is a parameter
mapping a zone name to the current local time there, `none` when the zone
fails to resolve. -/
/-- ASCII model of Go's `strings.ToLower` (all strings it is applied to in
the source — channel names, weekday names — are ASCII). -/
def lowerChar (c : Char) : Char :=
  if 'A' ≤ c ∧ c ≤ 'Z' then Char.ofNat (c.toNat + 32) else c

def lowerStr (s : String) : String := String.mk (s.toList.map lowerChar)

structure AlertHours where
  Start : String
  End : String
  Timezone : String
  Days : List String
deriving DecidableEq, Repr

structure LocalTime where
  weekday : Nat
  secs : Nat
deriving DecidableEq, Repr

/-- `strings.ToLower(now.Weekday().String()[:3])`: Go weekdays start at
Sunday = 0. -/
def weekday3 : Nat → String
| 0 => "sun"
| 1 => "mon"
| 2 => "tue"
| 3 => "wed"
| 4 => "thu"
| 5 => "fri"
| _ => "sat"

def digitVal (c : Char) : Nat := c.toNat - 48

/-- The `":MM"` tail of the `"15:04"` layout: a literal colon, then exactly
two digits in 00-59, then end of input (Go rejects trailing text). -/
def parseClockMinutes : List Char → Option Nat
| ':' :: m1 :: m2 :: [] =>
  if m1.isDigit && m2.isDigit then
    let m := 10 * digitVal m1 + digitVal m2
    if 60 ≤ m then none else some m
  else none
| _ => none

/-- `time.ParseInLocation("15:04", s, loc)` reduced to its success value in
minutes since midnight: one or two digits of hour (two when the second
character is a digit, per Go's `getnum` with `fixed = false`), hour below
24, then `parseClockMinutes`. -/
def parseClock (s : String) : Option Nat :=
  match s.toList with
  | [] => none
  | c1 :: rest =>
    if c1.isDigit then
      match rest with
      | [] => none
      | c2 :: rest2 =>
        if c2.isDigit then
          let h := 10 * digitVal c1 + digitVal c2
          if 24 ≤ h then none
          else (parseClockMinutes rest2).map (fun m => 60 * h + m)
        else
          (parseClockMinutes rest).map (fun m => 60 * digitVal c1 + m)
    else none

/-- The body of `isWithinAlertHours` after timezone resolution: the weekday
allow-list check, the two fail-open `"15:04"` parses, and the window
comparison on today's-date timestamps (start/end at minute granularity,
`now` at second granularity; `Before`/`After` are strict). -/
def withHours (h : AlertHours) (now : LocalTime) : Bool :=
  if decide (0 < h.Days.length) && !(h.Days.any (fun d => lowerStr d == weekday3 now.weekday)) then
    false
  else
    match parseClock h.Start with
    | none => true
    | some s =>
      match parseClock h.End with
      | none => true
      | some e =>
        if 60 * e < 60 * s then
          decide (60 * s < now.secs) || decide (now.secs < 60 * e)
        else
          decide (60 * s < now.secs) && decide (now.secs < 60 * e)

/-- `isWithinAlertHours`: no window means always allow; a named timezone
that fails to resolve falls back to UTC; an empty timezone name uses local
time. -/
def isWithinAlertHours (loadLoc : String → Option LocalTime)
    (utcNow localNow : LocalTime) : Option AlertHours → Bool
| none => true
| some h =>
  let now :=
    if h.Timezone ≠ "" then
      match loadLoc h.Timezone with
      | some t => t
      | none => utcNow
    else localNow
  withHours h now

/-- A zone environment in which no timezone name resolves. -/
def noZones : String → Option LocalTime := fun _ => none

/-- 22:00-06:00 overnight window, no timezone, no weekday restriction. -/
def overnightWindow : AlertHours := ⟨"22:00", "06:00", "", []⟩

/-- 08:00-18:00 daytime window, no timezone, no weekday restriction. -/
def daytimeWindow : AlertHours := ⟨"08:00", "18:00", "", []⟩

/-- C4.  With parseable times and a passing weekday gate the window admits
`now` strictly after start or strictly before end when the window spans
midnight (end before start), and strictly between start and end otherwise;
plus the six concrete spec examples evaluated through the whole check. -/
theorem C4_window_arithmetic :
    (∀ (h : AlertHours) (now : LocalTime) (s e : Nat),
      parseClock h.Start = some s → parseClock h.End = some e →
      (h.Days = [] ∨ h.Days.any (fun d => lowerStr d == weekday3 now.weekday) = true) →
      (withHours h now = true ↔
        (if e < s then 60 * s < now.secs ∨ now.secs < 60 * e
         else 60 * s < now.secs ∧ now.secs < 60 * e))) ∧
    isWithinAlertHours noZones ⟨0, 0⟩ ⟨3, 84600⟩ (some overnightWindow) = true ∧
    isWithinAlertHours noZones ⟨0, 0⟩ ⟨3, 7200⟩ (some overnightWindow) = true ∧
    isWithinAlertHours noZones ⟨0, 0⟩ ⟨3, 43200⟩ (some overnightWindow) = false ∧
    isWithinAlertHours noZones ⟨0, 0⟩ ⟨3, 43200⟩ (some daytimeWindow) = true ∧
    isWithinAlertHours noZones ⟨0, 0⟩ ⟨3, 72000⟩ (some daytimeWindow) = false ∧
    isWithinAlertHours noZones ⟨0, 0⟩ ⟨3, 25200⟩ (some daytimeWindow) = false := by
  refine ⟨?_, by decide, by decide, by decide, by decide, by decide, by decide⟩
  intro h now s e hs he hday
  have hd : (decide (0 < h.Days.length) &&
      !(h.Days.any (fun d => lowerStr d == weekday3 now.weekday))) = false := by
    rcases hday with h1 | h1 <;> simp [h1]
  rw [withHours, hd, if_neg (by simp), hs, he]
  by_cases hcmp : e < s
  · simp [hcmp, Nat.mul_lt_mul_left, hcmp]
  · have : ¬ (60 * e < 60 * s) := by
      intro hlt
      exact hcmp (by omega)
    simp [if_neg hcmp, if_neg this]

/-- Witness for C4 at the overnight window and 23:30. -/
theorem C4_window_arithmetic_witness :
    withHours overnightWindow ⟨3, 84600⟩ = true ↔
      (if 360 < 1320 then 60 * 1320 < 84600 ∨ 84600 < 60 * 360
       else 60 * 1320 < 84600 ∧ 84600 < 60 * 360) :=
  C4_window_arithmetic.1 overnightWindow ⟨3, 84600⟩ 1320 360 rfl rfl (Or.inl rfl)

/-- C7.  Fail-open behavior: an unresolvable timezone makes the check
proceed with the UTC clock, and an unparseable start or end makes the check
return true outright (given the weekday gate passes), so neither malformed
configuration suppresses a notification. -/
theorem C7_fail_open :
    (∀ (h : AlertHours) (loadLoc : String → Option LocalTime) (utcNow localNow : LocalTime),
      h.Timezone ≠ "" → loadLoc h.Timezone = none →
      isWithinAlertHours loadLoc utcNow localNow (some h) = withHours h utcNow) ∧
    (∀ (h : AlertHours) (now : LocalTime),
      (h.Days = [] ∨ h.Days.any (fun d => lowerStr d == weekday3 now.weekday) = true) →
      (parseClock h.Start = none ∨ parseClock h.End = none) →
      withHours h now = true) := by
  constructor
  · intro h loadLoc utcNow localNow htz hload
    rw [isWithinAlertHours, if_pos htz, hload]
  · intro h now hday hparse
    have hd : (decide (0 < h.Days.length) &&
        !(h.Days.any (fun d => lowerStr d == weekday3 now.weekday))) = false := by
      rcases hday with h1 | h1 <;> simp [h1]
    rw [withHours, hd, if_neg (by simp)]
    rcases hparse with h1 | h1
    · rw [h1]
    · cases hs : parseClock h.Start with
      | none => rfl
      | some s => rw [h1]

/-- Witness for C7: a window with a bad start time and an unresolvable
timezone still allows the alert, evaluated in UTC. -/
theorem C7_fail_open_witness :
    isWithinAlertHours noZones ⟨0, 0⟩ ⟨0, 0⟩ (some ⟨"9am", "17:00", "Mars/Olympus", []⟩) =
      withHours ⟨"9am", "17:00", "Mars/Olympus", []⟩ ⟨0, 0⟩ ∧
    withHours ⟨"9am", "17:00", "Mars/Olympus", []⟩ ⟨0, 0⟩ = true :=
  ⟨C7_fail_open.1 ⟨"9am", "17:00", "Mars/Olympus", []⟩ noZones ⟨0, 0⟩ ⟨0, 0⟩
      (by decide) rfl,
   C7_fail_open.2 ⟨"9am", "17:00", "Mars/Olympus", []⟩ ⟨0, 0⟩ (Or.inl rfl)
      (Or.inl (by decide))⟩

/-!
## Dispatch (`sendAlerts` and the channel senders)

The network is a parameter `World` giving, per channel kind, the outcome of
its outbound call: a marshal failure (before any request), a transport
error, or an HTTP response with a status code.  Each sender model returns
whether an outbound request was attempted (`posted`), whether the Go
function returned a nil error (`errNil`), and the tracker after the call
(email and WhatsApp record internally on success). -/
structure ChannelCfg where
  Enabled : Bool
  Interval : Time
deriving DecidableEq, Repr

structure AlertsConfig where
  Webhook : ChannelCfg
  Telegram : ChannelCfg
  Discord : ChannelCfg
  Teams : ChannelCfg
  Email : ChannelCfg
  WhatsApp : ChannelCfg
deriving DecidableEq, Repr

/-- `AlertRule` fields, as used by `checkAlertRules`/`sendAlerts`. -/
structure AlertRule where
  Condition : String
  Value : GoVal
  Message : String
  Category : String
  To : String
  Channels : List String
  ExecuteAction : String
  Instances : List String
  AlertHours : Option AlertHours
deriving DecidableEq, Repr

inductive NetOutcome where
| marshalErr
| transportErr
| response (status : Int)
deriving DecidableEq, Repr

abbrev World := String → NetOutcome

structure SendRes where
  posted : Bool
  errNil : Bool
  tr : AlertTracker
deriving DecidableEq, Repr

/-- `sendWebhookAlert`: interval gate only when `Interval > 0`; marshal
error before posting; transport error or non-2xx status returns an error. -/
def sendWebhookAlert (cfg : AlertsConfig) (tr : AlertTracker) (q : String)
    (world : World) (now : Time) : SendRes :=
  if 0 < cfg.Webhook.Interval ∧ CanSendAlert tr q "webhook" cfg.Webhook.Interval now = false then
    ⟨false, false, tr⟩
  else
    match world "webhook" with
    | .marshalErr => ⟨false, false, tr⟩
    | .transportErr => ⟨true, false, tr⟩
    | .response s => ⟨true, decide (200 ≤ s ∧ s < 300), tr⟩

/-- `sendTelegramAlert`: same gating and error behavior as the webhook. -/
def sendTelegramAlert (cfg : AlertsConfig) (tr : AlertTracker) (q : String)
    (world : World) (now : Time) : SendRes :=
  if 0 < cfg.Telegram.Interval ∧ CanSendAlert tr q "telegram" cfg.Telegram.Interval now = false then
    ⟨false, false, tr⟩
  else
    match world "telegram" with
    | .marshalErr => ⟨false, false, tr⟩
    | .transportErr => ⟨true, false, tr⟩
    | .response s => ⟨true, decide (200 ≤ s ∧ s < 300), tr⟩

/-- `sendDiscordAlert` (discord.go lines 76-82): a non-2xx response is only
logged — the function returns nil regardless of the status code. -/
def sendDiscordAlert (cfg : AlertsConfig) (tr : AlertTracker) (q : String)
    (world : World) (now : Time) : SendRes :=
  if 0 < cfg.Discord.Interval ∧ CanSendAlert tr q "discord" cfg.Discord.Interval now = false then
    ⟨false, false, tr⟩
  else
    match world "discord" with
    | .marshalErr => ⟨false, false, tr⟩
    | .transportErr => ⟨true, false, tr⟩
    | .response _ => ⟨true, true, tr⟩

/-- `sendTeamsAlert`: like Discord, returns nil on any HTTP response. -/
def sendTeamsAlert (cfg : AlertsConfig) (tr : AlertTracker) (q : String)
    (world : World) (now : Time) : SendRes :=
  if 0 < cfg.Teams.Interval ∧ CanSendAlert tr q "teams" cfg.Teams.Interval now = false then
    ⟨false, false, tr⟩
  else
    match world "teams" with
    | .marshalErr => ⟨false, false, tr⟩
    | .transportErr => ⟨true, false, tr⟩
    | .response _ => ⟨true, true, tr⟩

/-- `sendEmailAlert`: the interval gate is unconditional (no `Interval > 0`
guard); on success the function itself calls `RecordAlert(q, "email")`
before returning nil. -/
def sendEmailAlert (cfg : AlertsConfig) (tr : AlertTracker) (q : String)
    (world : World) (now : Time) : SendRes :=
  if CanSendAlert tr q "email" cfg.Email.Interval now = false then
    ⟨false, false, tr⟩
  else
    match world "email" with
    | .response _ => ⟨true, true, RecordAlert tr q "email" now⟩
    | _ => ⟨true, false, tr⟩

/-- `sendWhatsAppAlert`: unconditional interval gate; records internally on
a 2xx response and returns an error on any other status. -/
def sendWhatsAppAlert (cfg : AlertsConfig) (tr : AlertTracker) (q : String)
    (world : World) (now : Time) : SendRes :=
  if CanSendAlert tr q "whatsapp" cfg.WhatsApp.Interval now = false then
    ⟨false, false, tr⟩
  else
    match world "whatsapp" with
    | .marshalErr => ⟨false, false, tr⟩
    | .transportErr => ⟨true, false, tr⟩
    | .response s =>
      if 200 ≤ s ∧ s < 300 then ⟨true, true, RecordAlert tr q "whatsapp" now⟩
      else ⟨true, false, tr⟩

/-- The all-enabled-channels list built by `sendAlerts` when a rule names no
channels, in source order. -/
def enabledChannels (cfg : AlertsConfig) : List String :=
  (if cfg.Webhook.Enabled then ["webhook"] else []) ++
  (if cfg.Telegram.Enabled then ["telegram"] else []) ++
  (if cfg.Discord.Enabled then ["discord"] else []) ++
  (if cfg.Teams.Enabled then ["teams"] else []) ++
  (if cfg.Email.Enabled then ["email"] else []) ++
  (if cfg.WhatsApp.Enabled then ["whatsapp"] else [])

/-- Channel resolution at the top of `sendAlerts`. -/
def resolveChannels (cfg : AlertsConfig) (rule : AlertRule) : List String :=
  if rule.Channels.length = 0 then enabledChannels cfg else rule.Channels

/-- Whether the global configuration enables the channel kind named by the
(lowercased) string; unknown kinds are never enabled. -/
def kindEnabled (cfg : AlertsConfig) (lc : String) : Bool :=
  if lc = "webhook" then cfg.Webhook.Enabled
  else if lc = "telegram" then cfg.Telegram.Enabled
  else if lc = "discord" then cfg.Discord.Enabled
  else if lc = "teams" then cfg.Teams.Enabled
  else if lc = "email" then cfg.Email.Enabled
  else if lc = "whatsapp" then cfg.WhatsApp.Enabled
  else false

/-- One iteration of the dispatch loop body: the `switch
strings.ToLower(channel)` with per-kind enabled guards.  `var err error`
starts nil, so an unknown kind or a disabled kind leaves `errNil = true`
without invoking any sender.  Returns (sender invoked, result). -/
def kindStep (cfg : AlertsConfig) (tr : AlertTracker) (q : String)
    (world : World) (now : Time) (lc : String) : Bool × SendRes :=
  if lc = "webhook" then
    if cfg.Webhook.Enabled then (true, sendWebhookAlert cfg tr q world now) else (false, ⟨false, true, tr⟩)
  else if lc = "telegram" then
    if cfg.Telegram.Enabled then (true, sendTelegramAlert cfg tr q world now) else (false, ⟨false, true, tr⟩)
  else if lc = "discord" then
    if cfg.Discord.Enabled then (true, sendDiscordAlert cfg tr q world now) else (false, ⟨false, true, tr⟩)
  else if lc = "teams" then
    if cfg.Teams.Enabled then (true, sendTeamsAlert cfg tr q world now) else (false, ⟨false, true, tr⟩)
  else if lc = "email" then
    if cfg.Email.Enabled then (true, sendEmailAlert cfg tr q world now) else (false, ⟨false, true, tr⟩)
  else if lc = "whatsapp" then
    if cfg.WhatsApp.Enabled then (true, sendWhatsAppAlert cfg tr q world now) else (false, ⟨false, true, tr⟩)
  else (false, ⟨false, true, tr⟩)

def channelStep (cfg : AlertsConfig) (tr : AlertTracker) (q : String)
    (world : World) (now : Time) (channel : String) : Bool × SendRes :=
  kindStep cfg tr q world now (lowerStr channel)

/-- Record of one loop iteration, for stating dispatch properties. -/
structure Attempt where
  channel : String
  invoked : Bool
  posted : Bool
  errNil : Bool
deriving DecidableEq, Repr

/-- The `for _, channel := range channels` loop of `sendAlerts`: run the
switch, then `if err == nil { RecordAlert(queryName, channel) }` (with the
original-case channel string). -/
def sendLoop (cfg : AlertsConfig) (q : String) (world : World) (now : Time) :
    List String → AlertTracker → AlertTracker × List Attempt
| [], tr => (tr, [])
| ch :: rest, tr =>
  let step := channelStep cfg tr q world now ch
  let tr1 := if step.2.errNil then RecordAlert step.2.tr q ch now else step.2.tr
  let out := sendLoop cfg q world now rest tr1
  (out.1, ⟨ch, step.1, step.2.posted, step.2.errNil⟩ :: out.2)

/-- `sendAlerts` (dispatch source lines 95-156). -/
def sendAlerts (cfg : AlertsConfig) (tr : AlertTracker) (q : String)
    (rule : AlertRule) (world : World) (now : Time) : AlertTracker × List Attempt :=
  sendLoop cfg q world now (resolveChannels cfg rule) tr

theorem lastSent_record_other {tr : AlertTracker} {q c : String} {t : Time}
    (q' c' : String) (h : lastSent tr q c = some t) :
    lastSent (RecordAlert tr q' c' t) q c = some t := by
  unfold lastSent RecordAlert
  by_cases hq : q' = q
  · subst hq
    rw [lookup_store_self]
    simp only [Option.some_bind]
    by_cases hc : c' = c
    · subst hc
      rw [lookup_store_self]
    · rw [lookup_store_ne (fun hh => hc hh.symm)]
      unfold lastSent at h
      cases hl : lookup q' tr.LastAlert with
      | none => rw [hl] at h; simp at h
      | some inner => rw [hl] at h; simpa using h
  · rw [lookup_store_ne (fun hh => hq hh.symm)]
    exact h

theorem sendWebhookAlert_tracker (cfg : AlertsConfig) (tr : AlertTracker)
    (q : String) (world : World) (now : Time) :
    (sendWebhookAlert cfg tr q world now).tr = tr := by
  unfold sendWebhookAlert
  split_ifs
  · rfl
  · cases world "webhook" <;> rfl

theorem sendTelegramAlert_tracker (cfg : AlertsConfig) (tr : AlertTracker)
    (q : String) (world : World) (now : Time) :
    (sendTelegramAlert cfg tr q world now).tr = tr := by
  unfold sendTelegramAlert
  split_ifs
  · rfl
  · cases world "telegram" <;> rfl

theorem sendDiscordAlert_tracker (cfg : AlertsConfig) (tr : AlertTracker)
    (q : String) (world : World) (now : Time) :
    (sendDiscordAlert cfg tr q world now).tr = tr := by
  unfold sendDiscordAlert
  split_ifs
  · rfl
  · cases world "discord" <;> rfl

theorem sendTeamsAlert_tracker (cfg : AlertsConfig) (tr : AlertTracker)
    (q : String) (world : World) (now : Time) :
    (sendTeamsAlert cfg tr q world now).tr = tr := by
  unfold sendTeamsAlert
  split_ifs
  · rfl
  · cases world "teams" <;> rfl

theorem sendEmailAlert_tracker (cfg : AlertsConfig) (tr : AlertTracker)
    (q : String) (world : World) (now : Time) :
    (sendEmailAlert cfg tr q world now).tr = tr ∨
    (sendEmailAlert cfg tr q world now).tr = RecordAlert tr q "email" now := by
  unfold sendEmailAlert
  split_ifs
  · exact Or.inl rfl
  · cases world "email" <;> simp

theorem sendWhatsAppAlert_tracker (cfg : AlertsConfig) (tr : AlertTracker)
    (q : String) (world : World) (now : Time) :
    (sendWhatsAppAlert cfg tr q world now).tr = tr ∨
    (sendWhatsAppAlert cfg tr q world now).tr = RecordAlert tr q "whatsapp" now := by
  unfold sendWhatsAppAlert
  split_ifs
  · exact Or.inl rfl
  · cases world "whatsapp" with
    | marshalErr => exact Or.inl rfl
    | transportErr => exact Or.inl rfl
    | response s => dsimp only; split_ifs <;> simp

theorem kindStep_tracker (cfg : AlertsConfig) (tr : AlertTracker)
    (q : String) (world : World) (now : Time) (lc : String) :
    (kindStep cfg tr q world now lc).2.tr = tr ∨
    ∃ k, (kindStep cfg tr q world now lc).2.tr = RecordAlert tr q k now := by
  unfold kindStep
  split_ifs
  · exact Or.inl (sendWebhookAlert_tracker cfg tr q world now)
  · exact Or.inl rfl
  · exact Or.inl (sendTelegramAlert_tracker cfg tr q world now)
  · exact Or.inl rfl
  · exact Or.inl (sendDiscordAlert_tracker cfg tr q world now)
  · exact Or.inl rfl
  · exact Or.inl (sendTeamsAlert_tracker cfg tr q world now)
  · exact Or.inl rfl
  · rcases sendEmailAlert_tracker cfg tr q world now with h | h
    · exact Or.inl h
    · exact Or.inr ⟨"email", h⟩
  · exact Or.inl rfl
  · rcases sendWhatsAppAlert_tracker cfg tr q world now with h | h
    · exact Or.inl h
    · exact Or.inr ⟨"whatsapp", h⟩
  · exact Or.inl rfl
  · exact Or.inl rfl

theorem channelStep_preserve (cfg : AlertsConfig) (tr : AlertTracker)
    (q0 q c : String) (world : World) (now : Time) (ch : String)
    (h : lastSent tr q c = some now) :
    lastSent (channelStep cfg tr q0 world now ch).2.tr q c = some now := by
  rcases kindStep_tracker cfg tr q0 world now (lowerStr ch) with ht | ⟨k, ht⟩
  · rw [channelStep, ht]; exact h
  · rw [channelStep, ht]; exact lastSent_record_other q0 k h

theorem sendLoop_preserve (cfg : AlertsConfig) (q0 : String) (world : World)
    (now : Time) (l : List String) :
    ∀ (tr : AlertTracker) (q c : String), lastSent tr q c = some now →
      lastSent (sendLoop cfg q0 world now l tr).1 q c = some now := by
  induction l with
  | nil => intro tr q c h; exact h
  | cons ch rest ih =>
    intro tr q c h
    simp only [sendLoop]
    apply ih
    have hstep := channelStep_preserve cfg tr q0 q c world now ch h
    by_cases he : (channelStep cfg tr q0 world now ch).2.errNil
    · simp only [he, if_pos]
      exact lastSent_record_other q0 ch hstep
    · simp only [he, if_neg, Bool.false_eq_true, if_false]
      exact hstep

theorem kindStep_skip (cfg : AlertsConfig) (tr : AlertTracker)
    (q0 : String) (world : World) (now : Time) (lc : String)
    (hbad : kindEnabled cfg lc = false) :
    kindStep cfg tr q0 world now lc = (false, ⟨false, true, tr⟩) := by
  unfold kindStep
  unfold kindEnabled at hbad
  split_ifs at hbad ⊢ <;> simp_all

theorem kindStep_invoked (cfg : AlertsConfig) (tr : AlertTracker)
    (q0 : String) (world : World) (now : Time) (lc : String) :
    (kindStep cfg tr q0 world now lc).1 = kindEnabled cfg lc := by
  unfold kindStep kindEnabled
  split_ifs <;> simp_all

theorem sendLoop_bad_channel (cfg : AlertsConfig) (q0 : String) (world : World)
    (now : Time) (c : String) (hbad : kindEnabled cfg (lowerStr c) = false) :
    ∀ (l : List String) (tr : AlertTracker), c ∈ l →
      lastSent (sendLoop cfg q0 world now l tr).1 q0 c = some now := by
  intro l
  induction l with
  | nil => intro tr h; cases h
  | cons ch rest ih =>
    intro tr hmem
    simp only [sendLoop]
    rcases List.mem_cons.mp hmem with he | hm
    · subst he
      rw [channelStep, kindStep_skip cfg tr q0 world now _ hbad]
      simp only
      exact sendLoop_preserve cfg q0 world now rest _ q0 c
        (lastSent_record_self tr q0 c now)
    · exact ih _ hm

theorem sendLoop_skip_entries (cfg : AlertsConfig) (q0 : String) (world : World)
    (now : Time) (c : String) (hbad : kindEnabled cfg (lowerStr c) = false) :
    ∀ (l : List String) (tr : AlertTracker) (a : Attempt),
      a ∈ (sendLoop cfg q0 world now l tr).2 → a.channel = c →
      a.invoked = false ∧ a.posted = false := by
  intro l
  induction l with
  | nil => intro tr a ha; cases ha
  | cons ch rest ih =>
    intro tr a ha hch
    simp only [sendLoop, List.mem_cons] at ha
    rcases ha with ha | ha
    · subst ha
      simp only [Attempt.mk.injEq] at hch ⊢
      have hlc : kindEnabled cfg (lowerStr ch) = false := by
        rw [show ch = c from hch]
        exact hbad
      rw [channelStep, kindStep_skip cfg tr q0 world now _ hlc]
      exact ⟨rfl, rfl⟩
    · exact ih _ a ha hch

/-- C10.  A channel named in a rule whose lowercased name is not a
recognized kind, or whose kind is globally disabled, is not attempted at
all, yet `err` stays nil so `RecordAlert` stores the dispatch time for that
`(query, channel)` key. -/
theorem C10_skip_still_records (cfg : AlertsConfig) (tr : AlertTracker)
    (q : String) (rule : AlertRule) (world : World) (now : Time) (c : String)
    (hc : c ∈ resolveChannels cfg rule) (hbad : kindEnabled cfg (lowerStr c) = false) :
    lastSent (sendAlerts cfg tr q rule world now).1 q c = some now ∧
    (∀ a ∈ (sendAlerts cfg tr q rule world now).2, a.channel = c →
      a.invoked = false ∧ a.posted = false) := by
  constructor
  · exact sendLoop_bad_channel cfg q world now c hbad _ tr hc
  · intro a ha hch
    exact sendLoop_skip_entries cfg q world now c hbad _ tr a ha hch

/-- Witness for C10: an explicit channel list naming the unrecognized
channel "sms" on an all-disabled configuration still gets its send time
recorded. -/
theorem C10_skip_still_records_witness :
    lastSent (sendAlerts ⟨⟨false, 0⟩, ⟨false, 0⟩, ⟨false, 0⟩, ⟨false, 0⟩, ⟨false, 0⟩, ⟨false, 0⟩⟩
        NewAlertTracker "q" ⟨"gt", .vint 0, "m", "cat", "to", ["sms"], "", [], none⟩
        (fun _ => .response 200) 7).1 "q" "sms" = some 7 :=
  (C10_skip_still_records ⟨⟨false, 0⟩, ⟨false, 0⟩, ⟨false, 0⟩, ⟨false, 0⟩, ⟨false, 0⟩, ⟨false, 0⟩⟩
      NewAlertTracker "q" ⟨"gt", .vint 0, "m", "cat", "to", ["sms"], "", [], none⟩
      (fun _ => .response 200) 7 "sms" (by decide) (by decide)).1

theorem sendLoop_invoked_filter (cfg : AlertsConfig) (q0 : String)
    (world : World) (now : Time) :
    ∀ (l : List String) (tr : AlertTracker),
      (((sendLoop cfg q0 world now l tr).2.filter (fun a => a.invoked)).map
        (fun a => a.channel)) = l.filter (fun c => kindEnabled cfg (lowerStr c)) := by
  intro l
  induction l with
  | nil => intro tr; rfl
  | cons ch rest ih =>
    intro tr
    simp only [sendLoop, List.filter_cons]
    have hinv : (channelStep cfg tr q0 world now ch).1 = kindEnabled cfg (lowerStr ch) := by
      rw [channelStep]
      exact kindStep_invoked cfg tr q0 world now (lowerStr ch)
    cases hk : kindEnabled cfg (lowerStr ch) with
    | false =>
      rw [hk] at hinv
      simp [hinv, hk, ih]
    | true =>
      rw [hk] at hinv
      simp [hinv, hk, ih]

/-- C6.  Channel resolution: a non-empty explicit list is used verbatim, an
empty list resolves to exactly the globally-enabled channels (in source
order), and the invoked senders are exactly the resolved channels whose
kind is recognized and enabled — disabled kinds are skipped, not sent. -/
theorem C6_channel_resolution :
    (∀ (cfg : AlertsConfig) (rule : AlertRule), rule.Channels ≠ [] →
      resolveChannels cfg rule = rule.Channels) ∧
    (∀ (cfg : AlertsConfig) (rule : AlertRule), rule.Channels = [] →
      resolveChannels cfg rule = enabledChannels cfg) ∧
    (∀ (cfg : AlertsConfig) (tr : AlertTracker) (q : String) (rule : AlertRule)
        (world : World) (now : Time),
      (((sendAlerts cfg tr q rule world now).2.filter (fun a => a.invoked)).map
        (fun a => a.channel)) =
        (resolveChannels cfg rule).filter (fun c => kindEnabled cfg (lowerStr c))) := by
  refine ⟨?_, ?_, ?_⟩
  · intro cfg rule h
    rw [resolveChannels, if_neg (by simpa using h)]
  · intro cfg rule h
    rw [resolveChannels, if_pos (by simp [h])]
  · intro cfg tr q rule world now
    exact sendLoop_invoked_filter cfg q world now (resolveChannels cfg rule) tr

/-- Witness for C6 on a rule with an explicit subset while another channel
is enabled. -/
theorem C6_channel_resolution_witness :
    resolveChannels ⟨⟨true, 0⟩, ⟨true, 0⟩, ⟨false, 0⟩, ⟨false, 0⟩, ⟨false, 0⟩, ⟨false, 0⟩⟩
      ⟨"gt", .vint 0, "m", "cat", "to", ["telegram"], "", [], none⟩ = ["telegram"] :=
  C6_channel_resolution.1
    ⟨⟨true, 0⟩, ⟨true, 0⟩, ⟨false, 0⟩, ⟨false, 0⟩, ⟨false, 0⟩, ⟨false, 0⟩⟩
    ⟨"gt", .vint 0, "m", "cat", "to", ["telegram"], "", [], none⟩ (by decide)

/-- Telegram and Discord enabled with no interval; all other channels off. -/
def cfgTD : AlertsConfig :=
  ⟨⟨false, 0⟩, ⟨true, 0⟩, ⟨true, 0⟩, ⟨false, 0⟩, ⟨false, 0⟩, ⟨false, 0⟩⟩

/-- A rule explicitly targeting Discord then Telegram. -/
def ruleDT : AlertRule := ⟨"gt", .vint 0, "m", "cat", "to", ["discord", "telegram"], "", [], none⟩

/-- Discord's webhook answers HTTP 500; every other call answers 200. -/
def worldD500 : World := fun ch => if ch = "discord" then .response 500 else .response 200

/-- Discord's webhook is unreachable; every other call answers 200. -/
def worldDDown : World := fun ch => if ch = "discord" then .transportErr else .response 200

/-- C5.  Failure isolation holds (a Discord transport failure does not stop
the Telegram attempt, and is not recorded), but the no-record half of the
claim fails on the code: `sendDiscordAlert` returns nil on a non-2xx
response, so the failed send is recorded as successful for rate limiting. -/
theorem C5_failed_send_recording :
    (sendAlerts cfgTD NewAlertTracker "q" ruleDT worldD500 9).2 =
      [⟨"discord", true, true, true⟩, ⟨"telegram", true, true, true⟩] ∧
    lastSent (sendAlerts cfgTD NewAlertTracker "q" ruleDT worldD500 9).1 "q" "discord" = some 9 ∧
    (sendAlerts cfgTD NewAlertTracker "q" ruleDT worldDDown 9).2 =
      [⟨"discord", true, true, false⟩, ⟨"telegram", true, true, true⟩] ∧
    lastSent (sendAlerts cfgTD NewAlertTracker "q" ruleDT worldDDown 9).1 "q" "discord" = none := by
  decide

/-!
## Scheduler error path (`monitorQuery`, monitor.go lines 93-110)

When `executeAndCheck` fails, the loop does not abort: for each configured
rule it mutates a copy of the rule — message, category `"error"`, value set
to the failure text — and routes it through `sendAlerts`. -/

/-- The per-rule mutation in `monitorQuery`'s error branch. -/
def synthRule (q errText : String) (r : AlertRule) : AlertRule :=
  { r with
    Message := "Error executing query " ++ q ++ ": " ++ errText,
    Category := "error",
    Value := GoVal.vstr errText }

/-- The error branch of one tick: dispatch each synthesized rule in order
through `sendAlerts`, threading the tracker. -/
def errorTick (cfg : AlertsConfig) (q : String) (world : World) (now : Time)
    (errText : String) :
    List AlertRule → AlertTracker → AlertTracker × List (AlertRule × List Attempt)
| [], tr => (tr, [])
| r :: rest, tr =>
  let r' := synthRule q errText r
  let sent := sendAlerts cfg tr q r' world now
  let out := errorTick cfg q world now errText rest sent.1
  (out.1, (r', sent.2) :: out.2)

/-- Telegram enabled with a 60-unit minimum interval; all other channels
off. -/
def cfgTg : AlertsConfig :=
  ⟨⟨false, 0⟩, ⟨true, 60⟩, ⟨false, 0⟩, ⟨false, 0⟩, ⟨false, 0⟩, ⟨false, 0⟩⟩

/-- A rule explicitly targeting telegram, with an action configured. -/
def ruleTg : AlertRule := ⟨"gt", .vint 100, "too big", "performance", "ops", ["telegram"], "", [], none⟩

/-- Every outbound call answers HTTP 200. -/
def worldOK : World := fun _ => .response 200

/-- C8.  A failed tick synthesizes one dispatch per configured rule, each
carrying category `"error"` and the failure text as the value, routed
through the ordinary `sendAlerts`; because that path shares the rate
limiter, a second failing tick inside the minimum interval posts nothing
and a third after the interval posts again. -/
theorem C8_error_tick_dispatch :
    (∀ (cfg : AlertsConfig) (q : String) (world : World) (now : Time)
        (errText : String) (rules : List AlertRule) (tr : AlertTracker),
      (errorTick cfg q world now errText rules tr).2.map Prod.fst =
        rules.map (synthRule q errText)) ∧
    (∀ (q errText : String) (r : AlertRule),
      (synthRule q errText r).Category = "error" ∧
      (synthRule q errText r).Value = GoVal.vstr errText) ∧
    (errorTick cfgTg "q" worldOK 0 "conn refused" [ruleTg] NewAlertTracker).2.map
        (fun p => p.2.map (fun a => (a.posted, a.errNil))) = [[(true, true)]] ∧
    (errorTick cfgTg "q" worldOK 30 "conn refused" [ruleTg]
        (errorTick cfgTg "q" worldOK 0 "conn refused" [ruleTg] NewAlertTracker).1).2.map
        (fun p => p.2.map (fun a => (a.posted, a.errNil))) = [[(false, false)]] ∧
    (errorTick cfgTg "q" worldOK 61 "conn refused" [ruleTg]
        (errorTick cfgTg "q" worldOK 0 "conn refused" [ruleTg] NewAlertTracker).1).2.map
        (fun p => p.2.map (fun a => (a.posted, a.errNil))) = [[(true, true)]] := by
  refine ⟨?_, ?_, by decide, by decide, by decide⟩
  · intro cfg q world now errText rules
    induction rules with
    | nil => intro tr; rfl
    | cons r rest ih =>
      intro tr
      simp only [errorTick, List.map_cons, List.map]
      rw [ih]
  · intro q errText r
    exact ⟨rfl, rfl⟩

/-!
## Rule checking order (`checkAlertRules`, dispatch source lines 52-92)

For the temporal claim the loop is modelled as the sequence of dispatch /
action effects it emits, one block per rule in order. -/
inductive Effect where
| dispatched (idx : Nat) (q : String)
| actionRun (idx : Nat) (q : String)
deriving DecidableEq, Repr

/-- The effects of one iteration of `checkAlertRules`'s rule loop: skip on
empty row or instance restriction; on a triggered condition inside alert
hours, dispatch, then run the action when one is configured. -/
def ruleEffects (inst : String) (loadLoc : String → Option LocalTime)
    (utcNow localNow : LocalTime) (values : List GoVal) (q : String)
    (idx : Nat) (rule : AlertRule) : List Effect :=
  match values with
  | [] => []
  | value :: _ =>
    if rule.Instances.length > 0 ∧ inst ∉ rule.Instances then []
    else if evaluateCondition value rule.Condition rule.Value then
      if isWithinAlertHours loadLoc utcNow localNow rule.AlertHours then
        Effect.dispatched idx q ::
          (if rule.ExecuteAction ≠ "" then [Effect.actionRun idx q] else [])
      else []
    else []

/-- The effect trace of `checkAlertRules` over the rule list, rules indexed
from `i`. -/
def rulesEffects (inst : String) (loadLoc : String → Option LocalTime)
    (utcNow localNow : LocalTime) (values : List GoVal) (q : String) :
    Nat → List AlertRule → List Effect
| _, [] => []
| i, r :: rest =>
  ruleEffects inst loadLoc utcNow localNow values q i r ++
    rulesEffects inst loadLoc utcNow localNow values q (i + 1) rest

theorem ruleEffects_shape (inst : String) (loadLoc : String → Option LocalTime)
    (utcNow localNow : LocalTime) (values : List GoVal) (q : String)
    (idx : Nat) (rule : AlertRule) :
    ruleEffects inst loadLoc utcNow localNow values q idx rule = [] ∨
    ruleEffects inst loadLoc utcNow localNow values q idx rule = [.dispatched idx q] ∨
    ruleEffects inst loadLoc utcNow localNow values q idx rule =
      [.dispatched idx q, .actionRun idx q] := by
  unfold ruleEffects
  cases values with
  | nil => exact Or.inl rfl
  | cons v rest =>
    dsimp only
    split_ifs <;> simp

/-- C9.  Whenever the effect trace of `checkAlertRules` contains the action
run for a rule, the trace decomposes around the adjacent pair "dispatch
this rule's alerts, then run its action": the external action never runs
before the channel dispatch of the same trigger. -/
theorem C9_dispatch_before_action (inst : String)
    (loadLoc : String → Option LocalTime) (utcNow localNow : LocalTime)
    (values : List GoVal) (q : String) (i : Nat) (rules : List AlertRule)
    (idx : Nat)
    (hmem : Effect.actionRun idx q ∈
      rulesEffects inst loadLoc utcNow localNow values q i rules) :
    ∃ pre post, rulesEffects inst loadLoc utcNow localNow values q i rules =
      pre ++ [Effect.dispatched idx q, Effect.actionRun idx q] ++ post := by
  induction rules generalizing i with
  | nil => cases hmem
  | cons r rest ih =>
    simp only [rulesEffects, List.mem_append] at hmem
    rcases hmem with hmem | hmem
    · rcases ruleEffects_shape inst loadLoc utcNow localNow values q i r with h | h | h <;>
        rw [h] at hmem
      · cases hmem
      · simp at hmem
      · have hidx : idx = i := by
          simpa using hmem
        subst hidx
        refine ⟨[], rulesEffects inst loadLoc utcNow localNow values q (idx + 1) rest, ?_⟩
        simp only [rulesEffects, h, List.nil_append]
    · obtain ⟨pre, post, hsplit⟩ := ih (i + 1) hmem
      refine ⟨ruleEffects inst loadLoc utcNow localNow values q i r ++ pre, post, ?_⟩
      simp only [rulesEffects, hsplit, List.append_assoc]

/-- Witness for C9: a triggered rule with a configured action emits the
dispatch effect immediately before the action effect. -/
theorem C9_dispatch_before_action_witness :
    ∃ pre post,
      rulesEffects "db1" noZones ⟨0, 0⟩ ⟨0, 0⟩ [GoVal.vint 150] "q" 0
        [⟨"gt", .vint 100, "m", "cat", "to", ["telegram"], "restart.sh", [], none⟩] =
        pre ++ [Effect.dispatched 0 "q", Effect.actionRun 0 "q"] ++ post :=
  C9_dispatch_before_action "db1" noZones ⟨0, 0⟩ ⟨0, 0⟩ [GoVal.vint 150] "q" 0
    [⟨"gt", .vint 100, "m", "cat", "to", ["telegram"], "restart.sh", [], none⟩] 0
    (by decide)

/-!
## Interleaving model for the rate-limiter invariant (C2)

Each sender performs, for a fixed `(queryName, channel)` key: a
`CanSendAlert` admission check (under the tracker's reader lock), the
outbound send (no lock), and on success `RecordAlert` (under the writer
lock).  The `RWMutex` makes each individual map operation atomic, so an
execution is an interleaving of per-iteration `check` / `complete` /
`record` events over a shared last-send cell; each loop iteration gets a
fresh id and must perform its events in order.  Event times are the
monotone wall clock; `record` stores its own event time (`time.Now()`
inside `RecordAlert`), and `complete` marks the send-completion instant. -/
inductive EvKind where
| check
| complete
| record
deriving DecidableEq, Repr

structure Ev where
  lid : Nat
  kind : EvKind
  time : Time
deriving DecidableEq, Repr

/-- The tracker holding the shared cell's value for the fixed key. -/
def trOf (q c : String) : Option Time → AlertTracker
| none => NewAlertTracker
| some r => RecordAlert NewAlertTracker q c r

/-- Trace well-formedness: times never decrease; a `check` requires the
iteration to be fresh and the source's `CanSendAlert` to pass against the
current cell; `complete` follows a passed check; `record` follows a
completed send and overwrites the cell with its own time. -/
def wfFrom (q c : String) (I : Time) :
    Option Time → (Nat → Nat) → Time → List Ev → Bool
| _, _, _, [] => true
| last, pcs, prev, e :: rest =>
  decide (prev ≤ e.time) &&
  (match e.kind with
   | .check =>
     (pcs e.lid == 0) && CanSendAlert (trOf q c last) q c I e.time &&
       wfFrom q c I last (fun l => if l = e.lid then 1 else pcs l) e.time rest
   | .complete =>
     (pcs e.lid == 1) &&
       wfFrom q c I last (fun l => if l = e.lid then 2 else pcs l) e.time rest
   | .record =>
     (pcs e.lid == 2) &&
       wfFrom q c I (some e.time) (fun l => if l = e.lid then 3 else pcs l) e.time rest)

/-- The send-completion instants of a trace, in order. -/
def completions (trace : List Ev) : List Time :=
  (trace.filter (fun e => e.kind == EvKind.complete)).map (fun e => e.time)

/-- Every later completion is at least `I` after every earlier one. -/
def Spaced (I : Time) (ts : List Time) : Prop :=
  ts.Pairwise (fun a b => I ≤ b - a)

/-- Two iterations of loops sharing the key both pass the reader-locked
check before either records: both sends complete one time unit apart. -/
def raceTrace : List Ev :=
  [⟨0, .check, 0⟩, ⟨1, .check, 0⟩, ⟨0, .complete, 1⟩, ⟨1, .complete, 2⟩,
   ⟨0, .record, 3⟩, ⟨1, .record, 4⟩]

/-- Counterexample to C2 as stated: the interleaving `raceTrace` is
admitted by the embedded `CanSendAlert`/`RecordAlert` protocol (the check
is not atomic with the record), yet its two successful sends complete only
one time unit apart under a minimum interval of 100. -/
theorem C2_race_counterexample :
    wfFrom "q" "telegram" 100 none (fun _ => 0) 0 raceTrace = true ∧
    ¬ Spaced 100 (completions raceTrace) := by
  constructor
  · decide
  · unfold Spaced
    decide

/-- One fully serialized check / complete / record transaction per list
entry: `(iteration id, check time, completion time, record time)`. -/
def serialTrace : List (Nat × Time × Time × Time) → List Ev
| [] => []
| (l, tc, ts, tr) :: rest =>
  ⟨l, .check, tc⟩ :: ⟨l, .complete, ts⟩ :: ⟨l, .record, tr⟩ :: serialTrace rest

theorem completions_serialTrace (txs : List (Nat × Time × Time × Time)) :
    completions (serialTrace txs) = txs.map (fun tx => tx.2.2.1) := by
  induction txs with
  | nil => rfl
  | cons tx rest ih =>
    obtain ⟨l, tc, ts, tr⟩ := tx
    simp only [serialTrace, completions, List.filter, List.map] at ih ⊢
    simpa using ih

theorem canSend_trOf_some (q c : String) (I t r : Time) :
    CanSendAlert (trOf q c (some r)) q c I t = decide (I ≤ t - r) := by
  rw [trOf, canSend_eq_lastSent, lastSent_record_self]

theorem serial_spaced_aux (q c : String) (I : Time) :
    ∀ (txs : List (Nat × Time × Time × Time)) (pcs : Nat → Nat) (r prev : Time),
      r ≤ prev →
      wfFrom q c I (some r) pcs prev (serialTrace txs) = true →
      (∀ t ∈ txs.map (fun tx => tx.2.2.1), r + I ≤ t) ∧
        Spaced I (txs.map (fun tx => tx.2.2.1)) := by
  intro txs
  induction txs with
  | nil =>
    intro pcs r prev hr hwf
    exact ⟨by simp, List.Pairwise.nil⟩
  | cons tx rest ih =>
    intro pcs r prev hr hwf
    obtain ⟨l, tc, ts, tr⟩ := tx
    simp only [serialTrace, wfFrom, canSend_trOf_some, Bool.and_eq_true,
      decide_eq_true_eq, beq_iff_eq] at hwf
    obtain ⟨h1, ⟨hpc0, hcs⟩, h2, hpc1, h3, hpc2, hrest⟩ := hwf
    have hrec := ih _ tr tr le_rfl hrest
    have hts : r + I ≤ ts := by linarith
    refine ⟨?_, ?_⟩
    · intro t ht
      simp only [List.map_cons, List.mem_cons] at ht
      rcases ht with ht | ht
      · exact ht ▸ hts
      · have hb := hrec.1 t ht
        linarith
    · simp only [List.map_cons]
      refine List.Pairwise.cons ?_ hrec.2
      intro t ht
      have hb := hrec.1 t ht
      linarith

/-- C2 amended: when the check / send / record transactions for a key run
serially (one at a time, as when each probe loop owns a distinct key), any
two successful sends complete at least the minimum interval apart.  As
stated over concurrent interleavings the claim is false
(`C2_race_counterexample`). -/
theorem C2_serialized_spacing (q c : String) (I : Time)
    (txs : List (Nat × Time × Time × Time)) (t0 : Time)
    (hwf : wfFrom q c I none (fun _ => 0) t0 (serialTrace txs) = true) :
    Spaced I (completions (serialTrace txs)) := by
  rw [completions_serialTrace]
  cases txs with
  | nil => exact List.Pairwise.nil
  | cons tx rest =>
    obtain ⟨l, tc, ts, tr⟩ := tx
    simp only [serialTrace, wfFrom, Bool.and_eq_true, decide_eq_true_eq,
      beq_iff_eq] at hwf
    obtain ⟨h1, ⟨hpc0, hcs⟩, h2, hpc1, h3, hpc2, hrest⟩ := hwf
    have hrec := serial_spaced_aux q c I rest _ tr tr le_rfl hrest
    simp only [List.map_cons]
    refine List.Pairwise.cons ?_ hrec.2
    intro t ht
    have hb := hrec.1 t ht
    linarith

/-- Witness for the amended C2: two serialized transactions 102 time units
apart under interval 100 are admitted and correctly spaced. -/
theorem C2_serialized_spacing_witness :
    wfFrom "q" "telegram" 100 none (fun _ => 0) 0
        (serialTrace [(0, 0, 1, 2), (1, 102, 103, 104)]) = true ∧
    Spaced 100 (completions (serialTrace [(0, 0, 1, 2), (1, 102, 103, 104)])) :=
  ⟨by decide,
   C2_serialized_spacing "q" "telegram" 100
     [(0, 0, 1, 2), (1, 102, 103, 104)] 0 (by decide)⟩

end PgStatAlert
